import Mathlib

set_option maxRecDepth 8192

/-!
Verification development for the tinydotnet runtime core.

The definitions below are shallow embeddings of the C sources:
`src/dotnet/types.c` (type-relation primitives, derivative-type caches,
`isinstance`) and `src/dotnet/jit/jit.c` (abstract evaluation stack,
snapshot merging, branch-point validation, `managed_memcpy`, and the
MIR-emission helpers for allocation, division guards and binary numeric
operations).  Machine pointers are modelled as `Nat`/`Int`; fallible
operations return `Option`; the in-memory type graph is an explicit
parameter.  Theorems about each embedded operation follow the
definitions.
-/

/-! ## Type universe (types.c)

A `Ty` value stands for one `System_Type` object.  Array and by-ref
derivative objects are unique per element type in the runtime (they are
created once and cached, see `get_array_type` / `get_by_ref_type`), so
pointer equality of type objects coincides with structural equality of
`Ty` values, provided distinct `defined` indices denote distinct
metadata types.  `nullT` stands for the NULL type pointer that the
translator pushes for `ldnull`.
-/

inductive PrimTy where
  | objectT | valueTypeT | arrayClassT | stringT
  | booleanT | charT
  | sbyteT | byteT | int16T | uint16T | int32T | uint32T
  | int64T | uint64T | intptrT | uintptrT
  | singleT | doubleT
deriving DecidableEq

inductive Ty where
  | nullT : Ty
  | prim : PrimTy → Ty
  | defined : Nat → Ty
  | arrayOf : Ty → Ty
  | byrefOf : Ty → Ty
deriving DecidableEq

/-- Metadata recorded for one `defined` (metadata-loaded) type: its
value-type/interface kind flags, the underlying primitive when the type
is an enum, its base type, and its interface-implementation list. -/
structure DefinedInfo where
  isValueType : Bool := false
  isInterface : Bool := false
  enumElement : Option PrimTy := none
  baseType : Option Ty := none
  interfaceImpls : List Ty := []

def TypeGraph := Nat → DefinedInfo

def Ty.isArrayTy : Ty → Bool
  | .arrayOf _ => true
  | _ => false

def Ty.isByRefTy : Ty → Bool
  | .byrefOf _ => true
  | _ => false

/-- Embeds `type_is_enum` (types.h): a type whose underlying enum element
exists.  Primitives, arrays and by-refs are never enums. -/
def type_is_enum (G : TypeGraph) : Ty → Bool
  | .defined n => (G n).enumElement.isSome
  | _ => false

/-- Embeds `type_is_interface`: only metadata types carry the interface flag. -/
def type_is_interface (G : TypeGraph) : Ty → Bool
  | .defined n => (G n).isInterface
  | _ => false

/-- Embeds the `IsValueType` flag: the numeric/char/bool/float primitives
are value types; `System.Object`, `System.ValueType`, `System.Array` and
`System.String` are classes; arrays and by-refs are not value types. -/
def type_is_value_type (G : TypeGraph) : Ty → Bool
  | .prim .objectT => false
  | .prim .valueTypeT => false
  | .prim .arrayClassT => false
  | .prim .stringT => false
  | .prim _ => true
  | .defined n => (G n).isValueType
  | _ => false

/-- Modelled from the spec: `type_is_object_ref` lives in types.h, which
is not among the provided sources.  Per the spec (§4.3, §4.4) reference
types, interfaces and arrays have stack type `STACK_TYPE_O`, and the
NULL type is assignable to any object reference; so the predicate holds
for the NULL type and every type whose stack classification is `O`. -/
def type_is_object_ref (G : TypeGraph) : Ty → Bool
  | .nullT => true
  | .prim .objectT => true
  | .prim .valueTypeT => true
  | .prim .arrayClassT => true
  | .prim .stringT => true
  | .prim _ => false
  | .defined n => !(G n).isValueType
  | .arrayOf _ => true
  | .byrefOf _ => false

/-- The `BaseType` field: `get_array_type` sets an array's base to
`System.Array`, `get_by_ref_type` sets a by-ref's base to its element
type; the primitives follow the CLI class hierarchy. -/
def type_base_type (G : TypeGraph) : Ty → Option Ty
  | .nullT => none
  | .prim .objectT => none
  | .prim .valueTypeT => some (.prim .objectT)
  | .prim .arrayClassT => some (.prim .objectT)
  | .prim .stringT => some (.prim .objectT)
  | .prim _ => some (.prim .valueTypeT)
  | .defined n => (G n).baseType
  | .arrayOf _ => some (.prim .arrayClassT)
  | .byrefOf t => some t

/-- Embeds `type_get_underlying_type` (types.c:376): an enum collapses to
its element type, anything else is unchanged. -/
def type_get_underlying_type (G : TypeGraph) (T : Ty) : Ty :=
  match T with
  | .defined n =>
    match (G n).enumElement with
    | some p => .prim p
    | none => T
  | _ => T

/-- Embeds `type_get_reduced_type` (types.c:384): underlying type, then
unsigned collapses to signed of the same width. -/
def type_get_reduced_type (G : TypeGraph) (T : Ty) : Ty :=
  match type_get_underlying_type G T with
  | .prim .byteT => .prim .sbyteT
  | .prim .uint16T => .prim .int16T
  | .prim .uint32T => .prim .int32T
  | .prim .uint64T => .prim .int64T
  | .prim .uintptrT => .prim .intptrT
  | r => r

/-- Embeds `type_get_verification_type` (types.c:401): reduced type, then
Boolean collapses to SByte, Char to Int16, and a by-ref maps to the
by-ref of the verification type of its referent (the referent is stored
in the by-ref's `BaseType`). -/
def type_get_verification_type (G : TypeGraph) : Ty → Ty
  | .byrefOf t => .byrefOf (type_get_verification_type G t)
  | T =>
    match type_get_reduced_type G T with
    | .prim .booleanT => .prim .sbyteT
    | .prim .charT => .prim .int16T
    | r => r

/-- Embeds `type_get_intermediate_type` (types.c:414): verification type,
then small ints promote to Int32. -/
def type_get_intermediate_type (G : TypeGraph) (T : Ty) : Ty :=
  match type_get_verification_type G T with
  | .prim .sbyteT => .prim .int32T
  | .prim .int16T => .prim .int32T
  | r => r

/-- Embeds `type_get_direct_base_class` (types.c:445): `System.Array` for
arrays, `System.Object` for object references and interfaces,
`System.ValueType` for value types. -/
def type_get_direct_base_class (G : TypeGraph) (T : Ty) : Option Ty :=
  if T.isArrayTy then some (.prim .arrayClassT)
  else if type_is_object_ref G T || type_is_interface G T then some (.prim .objectT)
  else if type_is_value_type G T then some (.prim .valueTypeT)
  else none

def type_interface_impls (G : TypeGraph) : Ty → List Ty
  | .defined n => (G n).interfaceImpls
  | _ => []

/-- Embeds `type_is_interface_directly_implemented_by` (types.c:457):
`I` must be an interface and appear in `T`'s interface-impl list. -/
def type_is_interface_directly_implemented_by (G : TypeGraph) (I T : Ty) : Bool :=
  type_is_interface G I && (type_interface_impls G T).contains I

/-- The base-chain walk of `type_is_compatible_with` (types.c:497-504):
starting from `T`'s base, walk `BaseType` links looking for `U`.  The C
loop terminates because loaded base chains are finite and acyclic; the
embedding makes that bound explicit as `fuel`. -/
def type_base_chain_reaches (G : TypeGraph) : Nat → Ty → Ty → Bool
  | 0, _, _ => false
  | fuel + 1, T, U =>
    match type_base_type G T with
    | none => false
    | some B => B = U || type_base_chain_reaches G fuel B U

/-- Embeds `type_is_pointer_element_compatible_with` (types.c:439):
equality of verification types (applied, as in the C, to the by-ref
types themselves). -/
def type_is_pointer_element_compatible_with (G : TypeGraph) (T U : Ty) : Bool :=
  type_get_verification_type G T = type_get_verification_type G U

/-- Embeds `type_is_compatible_with` (types.c:475): identity; for object
references, the direct base class or a directly implemented interface;
for non-value-types, any ancestor on the base chain; component-wise
compatibility for arrays (with `type_is_array_element_compatible_with`
from types.c:423 applied to the element types, inlined here) and for
by-refs.  `fuel` bounds the recursion depth (base-chain length plus
array-element nesting), which is finite for every loaded type graph. -/
def type_is_compatible_with (G : TypeGraph) : Nat → Ty → Ty → Bool
  | 0, _, _ => false
  | fuel + 1, T, U =>
    if T = U then true
    else if T = .nullT ∨ U = .nullT then false
    else
      (type_is_object_ref G T &&
        (decide (type_get_direct_base_class G T = some U) ||
         type_is_interface_directly_implemented_by G U T)) ||
      (!type_is_value_type G T && type_base_chain_reaches G (fuel + 1) T U) ||
      (match T, U with
       | .arrayOf a, .arrayOf b =>
         type_is_compatible_with G fuel
             (type_get_underlying_type G a) (type_get_underlying_type G b) ||
           decide (type_get_verification_type G (type_get_underlying_type G a) =
             type_get_verification_type G (type_get_underlying_type G b))
       | _, _ => false) ||
      (T.isByRefTy && U.isByRefTy && type_is_pointer_element_compatible_with G T U)

/-- Embeds `type_is_array_element_compatible_with` (types.c:423):
underlying types are compatible-with, or have equal verification types.
Its body is inlined at the array case of `type_is_compatible_with`. -/
def type_is_array_element_compatible_with (G : TypeGraph) (fuel : Nat) (T U : Ty) : Bool :=
  type_is_compatible_with G fuel
      (type_get_underlying_type G T) (type_get_underlying_type G U) ||
    decide (type_get_verification_type G (type_get_underlying_type G T) =
      type_get_verification_type G (type_get_underlying_type G U))

/-- Embeds `type_is_assignable_to` (types.c:519): identity, equal
intermediate types, compatible-with, or the NULL type against an object
reference. -/
def type_is_assignable_to (G : TypeGraph) (fuel : Nat) (T U : Ty) : Bool :=
  if T = U then true
  else if type_get_intermediate_type G T = type_get_intermediate_type G U then true
  else if type_is_compatible_with G fuel T U then true
  else if T = .nullT && type_is_object_ref G U then true
  else false

/-- Embeds `type_is_verifier_assignable_to` (types.c:550): equality of
verification types, or assignability of the verification types. -/
def type_is_verifier_assignable_to (G : TypeGraph) (fuel : Nat) (Q R : Ty) : Bool :=
  if type_get_verification_type G Q = type_get_verification_type G R then true
  else
    type_is_assignable_to G fuel
      (type_get_verification_type G Q) (type_get_verification_type G R)

/-! ## isinstance (types.c:652) -/

/-- A non-null heap object: all the embedding needs is the type stored in
its vtable header. -/
structure ObjRef where
  vtableType : Ty

/-- Embeds `isinstance` (types.c:652): a null object is an instance of
every type; otherwise the result is `type_is_verifier_assignable_to` of
the object's vtable type against the requested type. -/
def isinstance (G : TypeGraph) (fuel : Nat) (object : Option ObjRef) (t : Ty) : Bool :=
  match object with
  | none => true
  | some o => type_is_verifier_assignable_to G fuel o.vtableType t

/-! ## Theorems about the verifier type relations (claims C8, C9) -/

/-- Reflexivity helper: the verification types of equal arguments are
equal, so the first branch of `type_is_verifier_assignable_to` fires. -/
theorem va_refl_aux (G : TypeGraph) (fuel : Nat) (T : Ty) :
    type_is_verifier_assignable_to G fuel T T = true := by
  simp [type_is_verifier_assignable_to]

/-- A three-type graph: interface `I` (index 0); class `B` (index 1)
extending `System.Object` and directly implementing `I`; class `C`
(index 2) extending `B` and implementing nothing directly — the shape
the C# compiler emits for `interface I {}`, `class B : I {}`,
`class C : B {}` (a derived class does not repeat the interfaces its
base implements). -/
def interfaceChainGraph : TypeGraph := fun n =>
  match n with
  | 0 => { isInterface := true }
  | 1 => { baseType := some (.prim .objectT), interfaceImpls := [.defined 0] }
  | _ => { baseType := some (.defined 1) }

/-- C8 counterexample: `type_is_verifier_assignable_to` is not
transitive.  In `interfaceChainGraph`, `C` is verifier-assignable to
`B` (base chain) and `B` to `I` (directly implemented interface), but
`C` is not verifier-assignable to `I`: `type_is_compatible_with` only
consults a type's own interface-impl list and its base-class chain, so
an interface inherited from the base class is unreachable.  (Fuel 8 far
exceeds the length-3 chains of this graph.) -/
theorem verifier_assignable_not_transitive_cex :
    type_is_verifier_assignable_to interfaceChainGraph 8 (.defined 2) (.defined 1) = true ∧
    type_is_verifier_assignable_to interfaceChainGraph 8 (.defined 1) (.defined 0) = true ∧
    type_is_verifier_assignable_to interfaceChainGraph 8 (.defined 2) (.defined 0) = false := by
  decide

/-- C8 (amended): `type_is_verifier_assignable_to` is reflexive for every
type of every type graph (and every chain-length bound); transitivity
fails in general (see the counterexample). -/
theorem verifier_assignable_refl (G : TypeGraph) (fuel : Nat) (T : Ty) :
    type_is_verifier_assignable_to G fuel T T = true :=
  va_refl_aux G fuel T

/-- C9: `isinstance` returns true on a null object for every requested
type; on a non-null object it is exactly `type_is_verifier_assignable_to`
of the object's vtable type against the requested type; consequently
every object is an instance of its own vtable type. -/
theorem isinstance_null_and_vtable_spec (G : TypeGraph) (fuel : Nat) (t : Ty) :
    isinstance G fuel none t = true ∧
    (∀ o : ObjRef,
      isinstance G fuel (some o) t = type_is_verifier_assignable_to G fuel o.vtableType t) ∧
    (∀ o : ObjRef, isinstance G fuel (some o) o.vtableType = true) := by
  refine ⟨rfl, fun o => rfl, fun o => ?_⟩
  simpa [isinstance] using va_refl_aux G fuel o.vtableType

/-! ## Derivative-type caches (types.c:232-327, claim C7)

A mutable-store model of the type objects: `objs` maps an object index
to its fields, `next` is the first unallocated index (`GC_NEW` returns
`next` and bumps it).  Index 0 is reserved for the `System.Array`
class object, which `get_array_type` installs as the array's base type.
The C functions take the per-type monitor around the allocation, so two
racing calls serialize; the sequential model below is the behaviour
under that monitor. -/

structure TypeObj where
  isArrayObj : Bool := false
  isByRefObj : Bool := false
  elementTypeF : Option Nat := none
  baseTypeF : Option Nat := none
  arrayTypeCache : Option Nat := none
  byRefTypeCache : Option Nat := none

structure TypeStore where
  objs : Nat → TypeObj
  next : Nat

/-- Embeds `get_array_type` (types.c:232): return the cached `ArrayType`
if present; otherwise allocate a fresh type object marked as an array,
with `BaseType = System.Array` and `ElementType = type`, and store it in
the base type's `ArrayType` cache slot. -/
def get_array_type (s : TypeStore) (t : Nat) : Nat × TypeStore :=
  match (s.objs t).arrayTypeCache with
  | some a => (a, s)
  | none =>
    let idx := s.next
    let arrObj : TypeObj := { isArrayObj := true, baseTypeF := some 0, elementTypeF := some t }
    let s2 : TypeStore := { objs := Function.update s.objs idx arrObj, next := s.next + 1 }
    let cached : TypeObj := { s2.objs t with arrayTypeCache := some idx }
    let s3 : TypeStore := { s2 with objs := Function.update s2.objs t cached }
    (idx, s3)

/-- Embeds `get_by_ref_type` (types.c:286): return the cached `ByRefType`
if present; otherwise allocate a fresh type object marked as a by-ref,
with `BaseType = type` — the C function stores the referent in
`BaseType` and never writes `ElementType` — and store it in the base
type's `ByRefType` cache slot. -/
def get_by_ref_type (s : TypeStore) (t : Nat) : Nat × TypeStore :=
  match (s.objs t).byRefTypeCache with
  | some a => (a, s)
  | none =>
    let idx := s.next
    let refObj : TypeObj := { isByRefObj := true, baseTypeF := some t }
    let s2 : TypeStore := { objs := Function.update s.objs idx refObj, next := s.next + 1 }
    let cached : TypeObj := { s2.objs t with byRefTypeCache := some idx }
    let s3 : TypeStore := { s2 with objs := Function.update s2.objs t cached }
    (idx, s3)

/-- A store with two plain type objects (index 0 the reserved
`System.Array` slot, index 1 an arbitrary base type), both caches empty. -/
def twoTypeStore : TypeStore :=
  { objs := fun _ => {}, next := 2 }

/-- C7 counterexample: the by-ref derivative created by
`get_by_ref_type` does not record its base type as its element type —
its `ElementType` field stays unset (the referent goes to `BaseType`
instead, types.c:314). -/
theorem by_ref_derivative_element_type_unset_cex :
    ((get_by_ref_type twoTypeStore 1).2.objs (get_by_ref_type twoTypeStore 1).1).elementTypeF
        = none ∧
    ((get_by_ref_type twoTypeStore 1).2.objs (get_by_ref_type twoTypeStore 1).1).baseTypeF
        = some 1 := by
  constructor <;> rfl

/-- C7 (amended): for every allocated base type `t`, `get_array_type`
and `get_by_ref_type` are idempotent — a second call returns the same
derivative object and leaves the store untouched, so the derivative is
created at most once per base type; on first creation the array
derivative records `t` as its `ElementType`, while the by-ref
derivative records `t` as its `BaseType`. -/
theorem derivative_types_unique (s : TypeStore) (t : Nat) (h : t < s.next) :
    get_array_type (get_array_type s t).2 t = ((get_array_type s t).1, (get_array_type s t).2) ∧
    get_by_ref_type (get_by_ref_type s t).2 t
        = ((get_by_ref_type s t).1, (get_by_ref_type s t).2) ∧
    ((s.objs t).arrayTypeCache = none →
      ((get_array_type s t).2.objs (get_array_type s t).1).elementTypeF = some t ∧
      (get_array_type s t).1 = s.next) ∧
    ((s.objs t).byRefTypeCache = none →
      ((get_by_ref_type s t).2.objs (get_by_ref_type s t).1).baseTypeF = some t ∧
      (get_by_ref_type s t).1 = s.next) := by
  have hne : t ≠ s.next := Nat.ne_of_lt h
  refine ⟨?_, ?_, ?_, ?_⟩
  · cases hc : (s.objs t).arrayTypeCache with
    | some a => simp [get_array_type, hc]
    | none => simp [get_array_type, hc, Function.update_same]
  · cases hc : (s.objs t).byRefTypeCache with
    | some a => simp [get_by_ref_type, hc]
    | none => simp [get_by_ref_type, hc, Function.update_same]
  · intro hc
    simp [get_array_type, hc, Function.update_same, Function.update_noteq (Ne.symm hne)]
  · intro hc
    simp [get_by_ref_type, hc, Function.update_same, Function.update_noteq (Ne.symm hne)]

/-- Witness for `derivative_types_unique` at the concrete two-object
store and base type 1. -/
theorem derivative_types_unique_witness :
    (1 < twoTypeStore.next) ∧
    ((get_array_type (get_array_type twoTypeStore 1).2 1
        = ((get_array_type twoTypeStore 1).1, (get_array_type twoTypeStore 1).2)) ∧
      ((twoTypeStore.objs 1).arrayTypeCache = none →
        ((get_array_type twoTypeStore 1).2.objs
            (get_array_type twoTypeStore 1).1).elementTypeF = some 1)) :=
  ⟨by decide,
    (derivative_types_unique twoTypeStore 1 (by decide)).1,
    fun hc => ((derivative_types_unique twoTypeStore 1 (by decide)).2.2.1 hc).1⟩

/-! ## Abstract-stack snapshots and merging (jit.c:489-524, 810-846; claim C3)

A stack is the list of the entry types (index 0 is the bottom of the
evaluation stack, matching the C loop order); the MIR registers bound to
the entries are irrelevant to the merge, which reads and writes only the
`type` fields.  The snapshot table `pc_to_stack_snapshot` is an
association list from IL offset to recorded stack. -/

/-- The per-entry merge of `stack_merge` (jit.c:500-510): `U = S` when
`T` is verifier-assignable to `S`, else `U = T` when `S` is
verifier-assignable to `T`, else the merge fails (`CHECK_FAIL`). -/
def merge_entry (G : TypeGraph) (fuel : Nat) (T S : Ty) : Option Ty :=
  if type_is_verifier_assignable_to G fuel T S then some S
  else if type_is_verifier_assignable_to G fuel S T then some T
  else none

/-- Embeds `stack_merge` (jit.c:489): the current stack and the snapshot
must have the same length; each pair merges via `merge_entry`; with
`allowChange` (forward targets) the snapshot entry becomes `U`, without
it (backward targets) the merge fails unless the snapshot entry already
equals `U`.  Returns the updated snapshot. -/
def stack_merge (G : TypeGraph) (fuel : Nat) (allowChange : Bool) :
    List Ty → List Ty → Option (List Ty)
  | [], [] => some []
  | T :: cur, S :: snap =>
    match merge_entry G fuel T S with
    | none => none
    | some U =>
      if allowChange then
        (stack_merge G fuel allowChange cur snap).map (fun rest => U :: rest)
      else if S = U then
        (stack_merge G fuel allowChange cur snap).map (fun rest => S :: rest)
      else none
  | _, _ => none

theorem merge_entry_some_iff (G : TypeGraph) (fuel : Nat) (T S U : Ty) :
    merge_entry G fuel T S = some U ↔
      ((type_is_verifier_assignable_to G fuel T S = true ∧ U = S) ∨
       (type_is_verifier_assignable_to G fuel T S = false ∧
        type_is_verifier_assignable_to G fuel S T = true ∧ U = T)) := by
  unfold merge_entry
  cases h1 : type_is_verifier_assignable_to G fuel T S <;>
    cases h2 : type_is_verifier_assignable_to G fuel S T <;>
      simp [eq_comm]

theorem stack_merge_spec_aux (G : TypeGraph) (fuel : Nat) (ac : Bool) :
    ∀ cur snap out, stack_merge G fuel ac cur snap = some out →
      cur.length = snap.length ∧ out.length = snap.length ∧
      (∀ i, i < snap.length →
        merge_entry G fuel (cur.getD i .nullT) (snap.getD i .nullT) = some (out.getD i .nullT)) ∧
      (ac = false → out = snap) := by
  intro cur
  induction cur with
  | nil =>
    intro snap out h
    cases snap with
    | nil =>
      cases out with
      | nil => simp
      | cons o os => simp [stack_merge] at h
    | cons S snapt => simp [stack_merge] at h
  | cons T curt ih =>
    intro snap out h
    cases snap with
    | nil => simp [stack_merge] at h
    | cons S snapt =>
      unfold stack_merge at h
      cases hm : merge_entry G fuel T S with
      | none => rw [hm] at h; simp at h
      | some U =>
        rw [hm] at h
        by_cases hac : ac = true
        · subst hac
          simp only [if_true] at h
          cases hrest : stack_merge G fuel true curt snapt with
          | none => rw [hrest] at h; simp at h
          | some rest =>
            rw [hrest] at h
            simp only [Option.map_some'] at h
            obtain ⟨hlen, hlen2, hidx, _⟩ := ih snapt rest hrest
            cases h
            refine ⟨by simp [hlen], by simp [hlen2], ?_, by simp⟩
            intro i hi
            cases i with
            | zero => simpa using hm
            | succ j => simpa using hidx j (Nat.lt_of_succ_lt_succ hi)
        · have hac2 : ac = false := by cases ac <;> simp_all
          subst hac2
          simp only [Bool.false_eq_true, if_false] at h
          by_cases hSU : S = U
          · rw [if_pos hSU] at h
            cases hrest : stack_merge G fuel false curt snapt with
            | none => rw [hrest] at h; simp at h
            | some rest =>
              rw [hrest] at h
              simp only [Option.map_some'] at h
              obtain ⟨hlen, hlen2, hidx, heq⟩ := ih snapt rest hrest
              cases h
              refine ⟨by simp [hlen], by simp [hlen2], ?_, ?_⟩
              · intro i hi
                cases i with
                | zero => simpa [hSU] using hm
                | succ j => simpa using hidx j (Nat.lt_of_succ_lt_succ hi)
              · intro _
                simp [heq rfl]
          · rw [if_neg hSU] at h
            simp at h

def lookup_snapshot (m : List (Nat × List Ty)) (k : Nat) : Option (List Ty) :=
  (m.find? (fun p => p.1 == k)).map (fun p => p.2)

def update_snapshot (m : List (Nat × List Ty)) (k : Nat) (v : List Ty) :
    List (Nat × List Ty) :=
  m.map (fun p => if p.1 = k then (p.1, v) else p)

/-- Embeds `jit_resolve_branch` (jit.c:810): a forward target
(`il_target >= il_offset`) with no snapshot records the current stack as
the target's snapshot; with an existing snapshot it merges with
`allow_change = true` and the merged stack replaces the recorded one; a
backward target requires an existing snapshot and merges with
`allow_change = false`, leaving the table unchanged. -/
def jit_resolve_branch (G : TypeGraph) (fuel : Nat) (m : List (Nat × List Ty))
    (cur : List Ty) (ilOffset ilTarget : Nat) : Option (List (Nat × List Ty)) :=
  if ilOffset ≤ ilTarget then
    match lookup_snapshot m ilTarget with
    | none => some ((ilTarget, cur) :: m)
    | some snap => (stack_merge G fuel true cur snap).map (update_snapshot m ilTarget)
  else
    match lookup_snapshot m ilTarget with
    | none => none
    | some snap => (stack_merge G fuel false cur snap).map (fun _ => m)

/-- C3: every successful merge of the current stack with a recorded
snapshot has equal lengths, and each pair of entries has the common
verifier-assignable type `U` of the claim (`U = S` when `T` is
verifier-assignable to `S`, else `U = T` with `S` verifier-assignable to
`T`), with the output entry equal to `U`; a backward merge
(`allow_change = false`) returns the snapshot unchanged; branch
resolution invokes the forward merge (updating the table) exactly for
`il_offset ≤ il_target` and the backward merge (table untouched)
otherwise.  The same `stack_merge` is invoked with `allow_change = true`
at fall-through into a snapshotted offset (jit.c:1703). -/
theorem stack_merge_and_branch_resolution_spec (G : TypeGraph) (fuel : Nat) :
    (∀ ac cur snap out, stack_merge G fuel ac cur snap = some out →
      cur.length = snap.length ∧ out.length = snap.length ∧
      (∀ i, i < snap.length →
        ((type_is_verifier_assignable_to G fuel (cur.getD i .nullT) (snap.getD i .nullT) = true ∧
            out.getD i .nullT = snap.getD i .nullT) ∨
         (type_is_verifier_assignable_to G fuel (cur.getD i .nullT) (snap.getD i .nullT) = false ∧
          type_is_verifier_assignable_to G fuel (snap.getD i .nullT) (cur.getD i .nullT) = true ∧
            out.getD i .nullT = cur.getD i .nullT))) ∧
      (ac = false → out = snap)) ∧
    (∀ m cur ilOffset ilTarget out, ilTarget < ilOffset →
      jit_resolve_branch G fuel m cur ilOffset ilTarget = some out → out = m) ∧
    (∀ m cur ilOffset ilTarget snap, ilOffset ≤ ilTarget →
      lookup_snapshot m ilTarget = some snap →
      jit_resolve_branch G fuel m cur ilOffset ilTarget =
        (stack_merge G fuel true cur snap).map (update_snapshot m ilTarget)) ∧
    (∀ m cur ilOffset ilTarget snap, ilTarget < ilOffset →
      lookup_snapshot m ilTarget = some snap →
      jit_resolve_branch G fuel m cur ilOffset ilTarget =
        (stack_merge G fuel false cur snap).map (fun _ => m)) := by
  refine ⟨?_, ?_, ?_, ?_⟩
  · intro ac cur snap out h
    obtain ⟨hlen, hlen2, hidx, heq⟩ := stack_merge_spec_aux G fuel ac cur snap out h
    refine ⟨hlen, hlen2, ?_, heq⟩
    intro i hi
    have := (merge_entry_some_iff G fuel (cur.getD i .nullT) (snap.getD i .nullT)
      (out.getD i .nullT)).mp (hidx i hi)
    tauto
  · intro m cur ilOffset ilTarget out hlt h
    unfold jit_resolve_branch at h
    rw [if_neg (Nat.not_le_of_lt hlt)] at h
    cases hl : lookup_snapshot m ilTarget with
    | none => rw [hl] at h; simp at h
    | some snap =>
      rw [hl] at h
      cases hsm : stack_merge G fuel false cur snap with
      | none => simp [hsm] at h
      | some o => simp [hsm] at h; exact h.symm
  · intro m cur ilOffset ilTarget snap hle hl
    unfold jit_resolve_branch
    rw [if_pos hle, hl]
  · intro m cur ilOffset ilTarget snap hlt hl
    unfold jit_resolve_branch
    rw [if_neg (Nat.not_le_of_lt hlt), hl]

/-- Witness for `stack_merge_and_branch_resolution_spec`: a concrete
one-entry merge in `interfaceChainGraph` (current stack `[C]`, snapshot
`[B]`, merged to `[B]`). -/
theorem stack_merge_and_branch_resolution_spec_witness :
    ([Ty.defined 2] : List Ty).length = ([Ty.defined 1] : List Ty).length :=
  ((stack_merge_and_branch_resolution_spec interfaceChainGraph 8).1 true
      [Ty.defined 2] [Ty.defined 1] [Ty.defined 1] (by decide)).1

/-! ## Abstract-stack depth (jit.c:436-475; claim C10) -/

/-- Embeds `stack_push` (jit.c:449): pushing fails with a check-failed
error unless the stack currently holds fewer than `MaxStackSize`
entries; on success, the entry is appended (`arrpush`). -/
def stack_push (maxStack : Nat) (stack : List Ty) (t : Ty) : Option (List Ty) :=
  if stack.length < maxStack then some (stack ++ [t]) else none

/-- Embeds `stack_pop` (jit.c:436): fails on an empty stack, otherwise
removes and returns the last-pushed entry (`arrpop`). -/
def stack_pop : List Ty → Option (Ty × List Ty)
  | [] => none
  | [t] => some (t, [])
  | t :: rest =>
    match stack_pop rest with
    | none => none
    | some (x, r) => some (x, t :: r)

inductive StackOp where
  | push (t : Ty)
  | pop

/-- A sequence of abstract-stack operations, as the translator performs
them while scanning a method body; any failing operation aborts the
translation. -/
def run_stack_ops (maxStack : Nat) : List StackOp → List Ty → Option (List Ty)
  | [], s => some s
  | .push t :: ops, s =>
    match stack_push maxStack s t with
    | none => none
    | some s2 => run_stack_ops maxStack ops s2
  | .pop :: ops, s =>
    match stack_pop s with
    | none => none
    | some (_, s2) => run_stack_ops maxStack ops s2

theorem stack_pop_length : ∀ (s : List Ty) (t : Ty) (r : List Ty),
    stack_pop s = some (t, r) → r.length + 1 = s.length := by
  intro s
  induction s with
  | nil => intro t r h; simp [stack_pop] at h
  | cons a rest ih =>
    intro t r h
    cases rest with
    | nil => simp [stack_pop] at h; simp [h]
    | cons b rest2 =>
      unfold stack_pop at h
      cases hp : stack_pop (b :: rest2) with
      | none => rw [hp] at h; simp at h
      | some p =>
        rw [hp] at h
        obtain ⟨x, r2⟩ := p
        simp at h
        obtain ⟨hx, hr⟩ := h
        subst hr
        have h2 := ih x r2 hp
        simp at h2 ⊢
        omega

/-- C10: `stack_push` fails with a check-failed error whenever the
abstract stack already holds `MaxStackSize` (or more) entries; a
successful push yields a stack of at most `MaxStackSize` entries; hence
along any successful sequence of push/pop operations starting within the
bound, the abstract stack depth never exceeds `MaxStackSize`. -/
theorem stack_push_depth_bound (maxStack : Nat) :
    (∀ (s : List Ty) (t : Ty), maxStack ≤ s.length → stack_push maxStack s t = none) ∧
    (∀ (s : List Ty) (t : Ty) (out : List Ty),
      stack_push maxStack s t = some out → out.length ≤ maxStack) ∧
    (∀ (ops : List StackOp) (init fin : List Ty), init.length ≤ maxStack →
      run_stack_ops maxStack ops init = some fin → fin.length ≤ maxStack) := by
  refine ⟨?_, ?_, ?_⟩
  · intro s t hle
    simp [stack_push, Nat.not_lt_of_le hle]
  · intro s t out h
    unfold stack_push at h
    by_cases hlt : s.length < maxStack
    · rw [if_pos hlt] at h
      simp at h
      subst h
      simp
      omega
    · rw [if_neg hlt] at h
      simp at h
  · intro ops
    induction ops with
    | nil => intro init fin hle h; simp [run_stack_ops] at h; subst h; exact hle
    | cons op rest ih =>
      intro init fin hle h
      cases op with
      | push t =>
        unfold run_stack_ops at h
        cases hp : stack_push maxStack init t with
        | none => rw [hp] at h; simp at h
        | some s2 =>
          rw [hp] at h
          have hlen : s2.length ≤ maxStack := by
            unfold stack_push at hp
            by_cases hlt : init.length < maxStack
            · rw [if_pos hlt] at hp
              simp at hp
              subst hp
              simp
              omega
            · rw [if_neg hlt] at hp; simp at hp
          exact ih s2 fin hlen h
      | pop =>
        unfold run_stack_ops at h
        cases hp : stack_pop init with
        | none => rw [hp] at h; simp at h
        | some p =>
          rw [hp] at h
          obtain ⟨x, s2⟩ := p
          have := stack_pop_length init x s2 hp
          exact ih s2 fin (by omega) h

/-- Witness for `stack_push_depth_bound`: pushing onto a one-entry stack
of a method with `MaxStackSize = 1` fails. -/
theorem stack_push_depth_bound_witness :
    stack_push 1 [Ty.nullT] Ty.nullT = none :=
  (stack_push_depth_bound 1).1 [Ty.nullT] Ty.nullT (by decide)

/-! ## Branch-point region validation (jit.c:848-890; claim C6) -/

/-- One exception-handling clause: try region and handler region, each
given by offset and length (half-open intervals). -/
structure EHClause where
  tryOffset : Nat
  tryLength : Nat
  handlerOffset : Nat
  handlerLength : Nat
deriving DecidableEq

/-- The containment test of jit.c:856-871:
`off ∈ [base, base + len)`. -/
def inRegion (base len off : Nat) : Bool :=
  decide (base ≤ off) && decide (off < base + len)

/-- The clause loop of `jit_branch_point` (jit.c:853-883), including its
`break` statements: when the source lies in a clause's try (or handler)
region the target must lie in the same region and THE LOOP STOPS — later
clauses are never examined; when only the target lies in the region the
check fails; otherwise the scan continues with the next clause. -/
def jit_branch_point_check : List EHClause → Nat → Nat → Bool
  | [], _, _ => true
  | c :: rest, src, tgt =>
    let sTry := inRegion c.tryOffset c.tryLength src
    let tTry := inRegion c.tryOffset c.tryLength tgt
    if sTry then tTry
    else if tTry then false
    else
      let sH := inRegion c.handlerOffset c.handlerLength src
      let tH := inRegion c.handlerOffset c.handlerLength tgt
      if sH then tH
      else if tH then false
      else jit_branch_point_check rest src tgt

/-- Embeds `jit_branch_point` (jit.c:848): region validation, then the
actual branch resolution. -/
def jit_branch_point (G : TypeGraph) (fuel : Nat) (clauses : List EHClause)
    (m : List (Nat × List Ty)) (cur : List Ty) (ilOffset ilTarget : Nat) :
    Option (List (Nat × List Ty)) :=
  if jit_branch_point_check clauses ilOffset ilTarget then
    jit_resolve_branch G fuel m cur ilOffset ilTarget
  else none

/-- C6 counterexample: with clauses `[try [0,10) / handler [10,20),
try [2,4) / handler [14,16)]`, the branch from offset 0 to offset 2 is
resolved normally even though exactly one endpoint (the target, offset
2) lies inside the second clause's try region `[2,4)`: the loop breaks
at the first clause (both endpoints inside its try region) and never
examines the second clause. -/
theorem branch_point_skips_later_clauses_cex :
    jit_branch_point interfaceChainGraph 1
        [⟨0, 10, 10, 10⟩, ⟨2, 2, 14, 2⟩] [] [] 0 2 = some [(2, [])] ∧
    inRegion 2 2 0 = false ∧ inRegion 2 2 2 = true := by
  decide

/-- C6 (amended): the region scan stops at the first clause whose try or
handler region contains the source offset, so only the clauses up to
that one are checked; in particular a branch whose source and target lie
on the same side of every clause's try and handler regions always passes
the validation and is resolved normally. -/
theorem branch_point_same_side_resolves (clauses : List EHClause) (src tgt : Nat)
    (h : ∀ c ∈ clauses,
      inRegion c.tryOffset c.tryLength src = inRegion c.tryOffset c.tryLength tgt ∧
      inRegion c.handlerOffset c.handlerLength src
        = inRegion c.handlerOffset c.handlerLength tgt) :
    jit_branch_point_check clauses src tgt = true := by
  induction clauses with
  | nil => rfl
  | cons c rest ih =>
    obtain ⟨h1, h2⟩ := h c (List.mem_cons_self c rest)
    unfold jit_branch_point_check
    cases hsT : inRegion c.tryOffset c.tryLength src with
    | true => simp [← h1, hsT]
    | false =>
      rw [hsT] at h1
      cases hsH : inRegion c.handlerOffset c.handlerLength src with
      | true => simp [← h1, ← h2, hsT, hsH]
      | false =>
        rw [hsH] at h2
        simp [← h1, ← h2, hsT, hsH]
        exact ih (fun cl hcl => h cl (List.mem_cons_of_mem c hcl))

/-- Witness for `branch_point_same_side_resolves`: one clause, source
and target both inside its try region. -/
theorem branch_point_same_side_resolves_witness :
    jit_branch_point_check [⟨0, 5, 5, 5⟩] 1 2 = true :=
  branch_point_same_side_resolves [⟨0, 5, 5, 5⟩] 1 2 (by decide)

/-! ## managed_memcpy (jit.c:67-91; claim C2)

The effect trace of `managed_memcpy(this, struct_type, offset, from)`:
all offsets are byte offsets.  `cpy dstOff srcOff len` records a plain
`memcpy(this_base + dstOff, from + srcOff, len)`; `upd dstOff srcByteOff`
records `gc_update(this, dstOff, value)` where `value` is the machine
word read at byte offset `srcByteOff` of `from`.  The C reads the
barrier value as `*((System_Object*)from + current_offset)` — pointer
arithmetic on an 8-byte pointer type — so the value comes from byte
offset `8 * current_offset`, and after the barrier it sets
`last_offset = current_offset` (not `current_offset + 8`), so the next
plain copy starts at the pointer's own offset. -/

inductive CopyEffect where
  | cpy (dstOff srcOff len : Nat)
  | upd (dstOff srcByteOff : Nat)
deriving DecidableEq

/-- The loop of `managed_memcpy` (jit.c:70-90), including the trailing
copy up to `StackSize`. -/
def managed_memcpy_loop (offset stackSize : Nat) : Nat → List Nat → List CopyEffect
  | last, [] =>
    if last ≠ stackSize then [.cpy (offset + last) last (stackSize - last)] else []
  | last, cur :: rest =>
    (if last ≠ cur then [.cpy (offset + last) last (cur - last)] else []) ++
      (CopyEffect.upd (offset + cur) (8 * cur)) :: managed_memcpy_loop offset stackSize cur rest

/-- Embeds `managed_memcpy` (jit.c:67): iterate over
`ManagedPointersOffsets` starting from `last_offset = 0`. -/
def managed_memcpy (offset : Nat) (managedPointersOffsets : List Nat) (stackSize : Nat) :
    List CopyEffect :=
  managed_memcpy_loop offset stackSize 0 managedPointersOffsets

/-- C2: for a 16-byte struct with a single managed pointer at byte
offset 8, copied to destination offset 0, the emitted effects are:
plain copy of bytes `[0,8)`; a write barrier whose value is read at
SOURCE byte offset `64 = 8 × 8` — not offset 8 as the claim states, and
outside the 16-byte source struct — and a plain copy of bytes `[8,16)`,
which re-copies the pointer's own bytes with a plain memcpy rather than
copying exactly the non-pointer ranges. -/
theorem managed_memcpy_barrier_reads_scaled_offset :
    managed_memcpy 0 [8] 16 = [.cpy 0 0 8, .upd 8 64, .cpy 8 8 8] ∧
    (64 : Nat) ≠ 8 ∧ ¬ (64 < 16) := by
  decide

/-! ## MIR emission: allocation, throw pathway, division guard, binary
numeric operations (jit.c:1041-1466; claims C1, C4, C5)

`MInsn` models the MIR instructions these emission paths produce.
Registers and labels are drawn from one fresh-name counter (`new_reg` /
`MIR_new_label`).  The throw pathway is embedded for a method with no
enclosing exception-handling clauses and a register-returnable return
type: there `jit_throw` (jit.c:1041) emits only the two-slot return
`ret(exception_reg, 0)` — the clause-search loop contributes no
instructions — which is exactly the situation of the spec's S2 method
`ldc.i4.1 ldc.i4.0 div ret`.  The value produced by the final arithmetic
instruction is irrelevant to every theorem below (each run either
returns before reaching it or never inspects its destination), so the
executor gives `binop` a dummy value. -/

abbrev Reg := Nat

/-- The runtime exception types the embedded emission paths compare or
construct; `other n` stands for any further type being allocated. -/
inductive RtTy where
  | oom
  | divideByZero
  | nullRef
  | other (n : Nat)
deriving DecidableEq

inductive MInsn where
  | label (l : Nat)
  | bt (l : Nat) (r : Reg)
  | bf (l : Nat) (r : Reg)
  | movReg (dst src : Reg)
  | uext32 (dst src : Reg)
  | f2d (dst src : Reg)
  | callGcNew (dst : Reg) (t : RtTy)
  | callCtor (excDst objArg : Reg)
  | retExc (r : Reg)
  | binop (dst a b : Reg)
deriving DecidableEq

/-- `jit_throw` for a method with no enclosing clauses (jit.c:1127-1146):
only the two-slot return with the exception register. -/
def jit_throw_emit_noclauses (excReg : Reg) : List MInsn := [.retExc excReg]

/-- `jit_throw_new(OutOfMemoryException)` (jit.c:1218): allocate the
exception object via `jit_new` — which, for OOM itself, emits no
follow-up check — call its default constructor (whose exception result
lands in the exception register), return if the constructor itself
threw, else move the new object into the exception register and throw. -/
def jit_throw_new_oom_emit (excReg : Reg) (n : Nat) : List MInsn × Nat :=
  let obj := n
  let l2 := n + 1
  ([.callGcNew obj RtTy.oom, .callCtor excReg obj, .bf l2 excReg] ++
     jit_throw_emit_noclauses excReg ++
     [.label l2, .movReg excReg obj] ++ jit_throw_emit_noclauses excReg,
   n + 2)

/-- Embeds `jit_new` (jit.c:1154): emit the `gc_new` call; unless the
allocated type is `OutOfMemoryException` itself, follow it immediately
with a branch-if-nonzero over a `jit_throw_new(OutOfMemoryException)`
block (jit.c:1195-1212). -/
def jit_new_emit (excReg result : Reg) (t : RtTy) (n : Nat) : List MInsn × Nat :=
  if t = RtTy.oom then ([.callGcNew result t], n)
  else
    let l := n
    let op := jit_throw_new_oom_emit excReg (n + 1)
    ([.callGcNew result t, .bt l result] ++ op.1 ++ [.label l], op.2)

/-- Embeds `jit_throw_new` (jit.c:1218) for an arbitrary exception type:
`jit_new` (with its OOM guard), constructor call, constructor-exception
check, move into the exception register, throw. -/
def jit_throw_new_emit (excReg : Reg) (t : RtTy) (n : Nat) : List MInsn × Nat :=
  let obj := n
  let np := jit_new_emit excReg obj t (n + 1)
  let l2 := np.2
  (np.1 ++ [.callCtor excReg obj, .bf l2 excReg] ++ jit_throw_emit_noclauses excReg ++
     [.label l2, .movReg excReg obj] ++ jit_throw_emit_noclauses excReg,
   np.2 + 1)

/-- The divide/remainder guard of `jit_binary_numeric_operation`
(jit.c:1348-1364), emitted verbatim: a branch-if-nonzero whose tested
register is `ctx->exception_reg` — not the popped denominator register —
followed by `jit_throw_new(DivideByZeroException)` and the skip label. -/
def jit_div_guard_emit (excReg : Reg) (n : Nat) : List MInsn × Nat :=
  let l := n
  let tp := jit_throw_new_emit excReg RtTy.divideByZero (n + 1)
  ([.bt l excReg] ++ tp.1 ++ [.label l], tp.2)

/-- The stack-type classification of a popped operand together with its
float sub-kind (`type_get_stack_type` plus the Single/Double checks of
jit.c:1408-1448). -/
inductive JitValTy where
  | i32 | i64 | iptr | f32 | f64 | objT | refT | valT
deriving DecidableEq

structure JitEntry where
  ty : JitValTy
  reg : Reg

/-- Embeds the operand-combination switch of
`jit_binary_numeric_operation` (jit.c:1338-1462) after the two pops: the
optional divide-by-zero guard, then per stack-type pair the result type
pushed and the conversion instructions emitted before the arithmetic
instruction (`MIR_UEXT32` for the Int32 × IntPtr combinations,
`MIR_F2D` for mixed float widths); float operands reject integer-only
operations; object/by-ref/value-type operands fail. -/
def jit_binary_numeric_operation_emit (isDivLike integerOnly : Bool) (excReg : Reg)
    (v1 v2 : JitEntry) (n : Nat) : Option (List MInsn × JitValTy × Nat) :=
  let gp := if isDivLike then jit_div_guard_emit excReg n else ([], n)
  let guard := gp.1
  let resultReg := gp.2
  let n2 := gp.2 + 1
  match v1.ty, v2.ty with
  | .i32, .i32 => some (guard ++ [.binop resultReg v1.reg v2.reg], .i32, n2)
  | .i32, .iptr =>
    some (guard ++ [.uext32 v1.reg v1.reg, .binop resultReg v1.reg v2.reg], .iptr, n2)
  | .i64, .i64 => some (guard ++ [.binop resultReg v1.reg v2.reg], .i64, n2)
  | .iptr, .i32 =>
    some (guard ++ [.uext32 v2.reg v2.reg, .binop resultReg v1.reg v2.reg], .iptr, n2)
  | .iptr, .iptr => some (guard ++ [.binop resultReg v1.reg v2.reg], .iptr, n2)
  | .f32, .f32 =>
    if integerOnly then none else some (guard ++ [.binop resultReg v1.reg v2.reg], .f32, n2)
  | .f32, .f64 =>
    if integerOnly then none else
      some (guard ++ [.f2d resultReg v1.reg, .binop resultReg resultReg v2.reg], .f64, n2)
  | .f64, .f32 =>
    if integerOnly then none else
      some (guard ++ [.f2d resultReg v2.reg, .binop resultReg v1.reg resultReg], .f64, n2)
  | .f64, .f64 =>
    if integerOnly then none else some (guard ++ [.binop resultReg v1.reg v2.reg], .f64, n2)
  | _, _ => none

/-- The value semantics of `MIR_UEXT32`: zero-extension of the low 32
bits. -/
def uext32Val (v : Int) : Int := v.emod 4294967296

/-- The value semantics of `MIR_EXT32` — the sign-extension that the
spec's words ("the Int32 side is sign-extended") call for; stated from
the spec for comparison with `uext32Val`, the instruction the code
actually emits. -/
def signExt32Val (v : Int) : Int :=
  let m := v.emod 4294967296
  if m < 2147483648 then m else m - 4294967296

/-- Machine state for executing emitted MIR: register file, a heap
recording the runtime type of each allocated object, and the sequence of
results the `gc_new` allocator will return (`0` models an allocation
failure). -/
structure MState where
  regs : Reg → Int
  heap : Int → Option RtTy
  allocs : List Int

inductive MOutcome where
  | ret (excVal : Int) (excTy : Option RtTy)
  | done
  | stuck
deriving DecidableEq

def setReg (s : MState) (r : Reg) (v : Int) : MState :=
  { s with regs := Function.update s.regs r v }

def findLabelIdx (prog : List MInsn) (l : Nat) : Option Nat :=
  prog.findIdx? (fun i => i == MInsn.label l)

/-- Executes an emitted instruction list: `bt`/`bf` branch on the tested
register; `callGcNew` consumes the next allocator result, recording the
allocated type in the heap when the result is nonzero; `callCtor`
stores the constructor's (successful) exception result 0 into the
exception register; `retExc r` performs the two-slot return, yielding
the exception value and the runtime type of the object it points to. -/
def mexec (prog : List MInsn) : Nat → Nat → MState → MOutcome × MState
  | 0, _, s => (.stuck, s)
  | fuel + 1, pc, s =>
    match prog.get? pc with
    | none => (.done, s)
    | some insn =>
      match insn with
      | .label _ => mexec prog fuel (pc + 1) s
      | .bt l r =>
        if s.regs r ≠ 0 then
          match findLabelIdx prog l with
          | none => (.stuck, s)
          | some idx => mexec prog fuel idx s
        else mexec prog fuel (pc + 1) s
      | .bf l r =>
        if s.regs r = 0 then
          match findLabelIdx prog l with
          | none => (.stuck, s)
          | some idx => mexec prog fuel idx s
        else mexec prog fuel (pc + 1) s
      | .movReg d r => mexec prog fuel (pc + 1) (setReg s d (s.regs r))
      | .uext32 d r => mexec prog fuel (pc + 1) (setReg s d (uext32Val (s.regs r)))
      | .f2d d r => mexec prog fuel (pc + 1) (setReg s d (s.regs r))
      | .callGcNew d t =>
        match s.allocs with
        | [] => (.stuck, s)
        | a :: rest =>
          let s2 : MState :=
            { regs := Function.update s.regs d a,
              heap := if a ≠ 0 then Function.update s.heap a (some t) else s.heap,
              allocs := rest }
          mexec prog fuel (pc + 1) s2
      | .callCtor excDst _ => mexec prog fuel (pc + 1) (setReg s excDst 0)
      | .retExc r => (.ret (s.regs r) (s.heap (s.regs r)), s)
      | .binop d _ _ => mexec prog fuel (pc + 1) (setReg s d 0)

/-- The MIR emitted for a `div` on two Int32 operands (exception
register 0, numerator register 1, denominator register 2), as for the
method `ldc.i4.1 ldc.i4.0 div ret`. -/
def dbzProg : List MInsn :=
  match jit_binary_numeric_operation_emit true true 0 ⟨.i32, 1⟩ ⟨.i32, 2⟩ 100 with
  | some (l, _, _) => l
  | none => []

/-- Initial register file: numerator 1 in register 1, denominator 1
(NONZERO) in register 2, exception register 0 clear. -/
def dbzRegs : Reg → Int := fun r => if r = 1 then 1 else if r = 2 then 1 else 0

/-- C1: the divide-by-zero guard emitted by
`jit_binary_numeric_operation` branches on the EXCEPTION register
(register 0), not on the denominator register: its first instruction is
`bt 100 0`.  Consequently, running the emitted code with a clear
exception register and denominator 1 — where the claim requires no
exception — still constructs and returns a `DivideByZeroException`. -/
theorem div_guard_raises_despite_nonzero_denominator :
    dbzRegs 2 = 1 ∧
    dbzProg.head? = some (.bt 100 0) ∧
    (mexec dbzProg 60 0 { regs := dbzRegs, heap := fun _ => none, allocs := [1000] }).1
      = .ret 1000 (some RtTy.divideByZero) := by
  refine ⟨by decide, by decide, ?_⟩
  decide

/-- C4: a binary numeric operation on Int32 (register 1) × IntPtr
(register 2) pushes an IntPtr result — that half of the claim holds —
but the conversion emitted for the Int32 side is `MIR_UEXT32`
(zero-extension), not the sign-extension the claim states: on the Int32
value -1 zero-extension yields 4294967295 where sign-extension yields
-1. -/
theorem binop_int32_intptr_zero_extends :
    jit_binary_numeric_operation_emit false false 0 ⟨.i32, 1⟩ ⟨.iptr, 2⟩ 10
        = some ([.uext32 1 1, .binop 10 1 2], .iptr, 11) ∧
    uext32Val (-1) = 4294967295 ∧
    signExt32Val (-1) = -1 ∧
    uext32Val (-1) ≠ signExt32Val (-1) := by
  decide

def zeroState (allocs : List Int) : MState :=
  { regs := fun _ => 0, heap := fun _ => none, allocs := allocs }

/-- C5: `jit_new` is the translator's single emission site for `gc_new`
calls (jit.c:1186; every `newobj`/`newarr`/`box`/`throw-new` allocation
goes through it).  For every allocated type other than
`OutOfMemoryException`, the allocation call is immediately followed by a
branch-if-nonzero null check, and a failing allocation runs into the
throw pathway, returning a newly constructed `OutOfMemoryException`
instance; a successful allocation falls through with the object pointer
in the result register.  For `OutOfMemoryException` itself, the emission
is exactly the allocation call — no check — so a failing allocation
falls through with a null result register. -/
theorem allocation_oom_guard_spec (t : RtTy) (h : t ≠ RtTy.oom) :
    (jit_new_emit 0 1 RtTy.oom 100).1 = [.callGcNew 1 RtTy.oom] ∧
    (jit_new_emit 0 1 t 100).1.take 2 = [.callGcNew 1 t, .bt 100 1] ∧
    (mexec (jit_new_emit 0 1 t 100).1 50 0 (zeroState [0, 1000])).1
        = .ret 1000 (some RtTy.oom) ∧
    (mexec (jit_new_emit 0 1 t 100).1 50 0 (zeroState [555])).1 = .done ∧
    (mexec (jit_new_emit 0 1 t 100).1 50 0 (zeroState [555])).2.regs 1 = 555 ∧
    (mexec (jit_new_emit 0 1 RtTy.oom 100).1 50 0 (zeroState [0])).1 = .done ∧
    (mexec (jit_new_emit 0 1 RtTy.oom 100).1 50 0 (zeroState [0])).2.regs 1 = 0 := by
  cases t with
  | oom => exact absurd rfl h
  | divideByZero => exact ⟨rfl, rfl, rfl, rfl, rfl, rfl, rfl⟩
  | nullRef => exact ⟨rfl, rfl, rfl, rfl, rfl, rfl, rfl⟩
  | other k => exact ⟨rfl, rfl, rfl, rfl, rfl, rfl, rfl⟩

/-- Witness for `allocation_oom_guard_spec` at the concrete type
`DivideByZeroException`: its failing allocation raises
`OutOfMemoryException`. -/
theorem allocation_oom_guard_spec_witness :
    (mexec (jit_new_emit 0 1 RtTy.divideByZero 100).1 50 0 (zeroState [0, 1000])).1
      = .ret 1000 (some RtTy.oom) :=
  (allocation_oom_guard_spec RtTy.divideByZero (by decide)).2.2.1
